import Mathlib

/-!
Verification development for the `api-integration-test` repository.

The repository ingests users and posts from a JSON API and assembles them into
an in-memory graph of entities and relationships.  `src/index.ts` contains the
API client (`ThirdPartyApiClient`, `PostsApi`, `UsersApi`), the id helpers
(`getUserId`, `getPostId`) and the ingestion driver (the async IIFE).  The
`Graph` class itself is imported from `./graph`, which is not part of the
sources; its operations (`createEntity`, `findEntityById`,
`createRelationship`) are modelled from the specification.
-/

namespace ApiIntegration

/-- `Geo` record shape from src/index.ts. -/
structure Geo where
  lat : String
  lng : String
deriving DecidableEq, Repr

/-- `Address` record shape from src/index.ts. -/
structure Address where
  street : String
  suite : String
  city : String
  zipcode : String
  geo : Geo
deriving DecidableEq, Repr

/-- `Company` record shape from src/index.ts. -/
structure Company where
  name : String
  catchPhrase : String
  bs : String
deriving DecidableEq, Repr

/-- `User` record shape from src/index.ts.  The JS numeric id is modelled as
an integer (all ids delivered by the source are integers). -/
structure User where
  id : Int
  name : String
  username : String
  email : String
  address : Address
  phone : String
  website : String
  company : Company
deriving DecidableEq, Repr

/-- `Post` record shape from src/index.ts. -/
structure Post where
  id : Int
  userId : Int
  title : String
  body : String
deriving DecidableEq, Repr

/-- The attribute payload stored on an entity: the driver passes the original
`User` or `Post` record verbatim. -/
inductive Record where
  | user (u : User)
  | post (p : Post)
deriving DecidableEq, Repr

/-- Modelled from the spec: an entity of the Graph Store (`./graph`, not in
src/): `id` string, `type` label, and the opaque attribute payload. -/
structure Entity (α : Type) where
  id : String
  type : String
  attrs : α
deriving DecidableEq, Repr

/-- Modelled from the spec: a relationship of the Graph Store (`./graph`, not
in src/): a directed labeled edge, stored by entity id. -/
structure Relationship where
  fromId : String
  toId : String
  label : String
deriving DecidableEq, Repr

/-- Modelled from the spec: the error the Graph Store raises on a
dangling-reference attempt in `createRelationship`. -/
inductive GraphError where
  | InvalidReferenceError
deriving DecidableEq, Repr

/-- Modelled from the spec: the Graph Store state (`./graph`, not in src/):
an insertion-ordered mapping from entity id to entity, and an ordered
sequence of relationships. -/
structure Graph (α : Type) where
  entities : List (Entity α)
  relationships : List Relationship
deriving DecidableEq, Repr

namespace Graph

/-- Modelled from the spec: the Graph Store starts empty. -/
def empty {α : Type} : Graph α := ⟨[], []⟩

/-- Modelled from the spec: `createEntity(id, type, attributes)` of the Graph
class (`./graph`, not in src/).  If no entity with `id` exists, the new entity
is appended to the insertion order; if one exists, its `type` and `attributes`
are overwritten in place (default duplicate policy, last write wins).  The
call is total: the default policy never throws. -/
def createEntity {α : Type} (g : Graph α) (id ty : String) (a : α) :
    Entity α × Graph α :=
  let e : Entity α := ⟨id, ty, a⟩
  if g.entities.any (fun x => x.id == id) then
    (e, { g with entities := g.entities.map (fun x => if x.id == id then e else x) })
  else
    (e, { g with entities := g.entities ++ [e] })

/-- Modelled from the spec: `findEntityById(id)` of the Graph class (`./graph`,
not in src/): pure lookup, returning the entity if present and a "not found"
result (`none`) otherwise; no mutation. -/
def findEntityById {α : Type} (g : Graph α) (id : String) : Option (Entity α) :=
  g.entities.find? (fun x => x.id == id)

/-- Modelled from the spec: `createRelationship(from, to, label)` of the Graph
class (`./graph`, not in src/).  The defensive check validates both handles
against the current store contents by id; a dangling reference fails with
`InvalidReferenceError`, otherwise the new edge is appended to the
relationship sequence (no deduplication). -/
def createRelationship {α : Type} (g : Graph α) (src dst : Entity α)
    (label : String) : Except GraphError (Relationship × Graph α) :=
  if g.entities.any (fun x => x.id == src.id) && g.entities.any (fun x => x.id == dst.id) then
    let r : Relationship := ⟨src.id, dst.id, label⟩
    .ok (r, { g with relationships := g.relationships ++ [r] })
  else
    .error .InvalidReferenceError

end Graph

/-- `getUserId` from src/index.ts line 105: `user:${user.id}`. -/
def getUserId (u : User) : String := "user:" ++ toString u.id

/-- `getPostId` from src/index.ts line 106: `post:${post.id}`. -/
def getPostId (p : Post) : String := "post:" ++ toString p.id

/-- The driver's per-user callback (src/index.ts lines 120-122):
`graph.createEntity(getUserId(user), "User", user)`. -/
def ingestUser (g : Graph Record) (u : User) : Graph Record :=
  (g.createEntity (getUserId u) "User" (Record.user u)).2

/-- The driver's per-post callback (src/index.ts lines 125-132): create the
post entity, look up the author entity by `"user:" + post.userId`, and if it
is found create a `"HAS"` relationship from author to post.  A failing
`createRelationship` inside the (never awaited) async callback would become
an unhandled rejection and not stop iteration; the branch is kept for
faithfulness and is provably unreachable. -/
def ingestPost (g : Graph Record) (p : Post) : Graph Record :=
  let r := g.createEntity (getPostId p) "Post" (Record.post p)
  match (r.2).findEntityById ("user:" ++ toString p.userId) with
  | some userEntity =>
    match (r.2).createRelationship userEntity r.1 "HAS" with
    | .ok (_, g2) => g2
    | .error _ => r.2
  | none => r.2

/-- The ingestion driver (src/index.ts lines 108-132): all users are ingested
first, then all posts, each in delivery order, starting from an empty graph. -/
def runDriver (users : List User) (posts : List Post) : Graph Record :=
  posts.foldl ingestPost (users.foldl ingestUser Graph.empty)

/-- Referential integrity: every relationship in the store has both endpoints
retrievable via `findEntityById` by their respective ids. -/
def Graph.Integrity {α : Type} (g : Graph α) : Prop :=
  ∀ r ∈ g.relationships,
    (g.findEntityById r.fromId).isSome = true ∧ (g.findEntityById r.toId).isSome = true

/-- The arguments of one `createEntity` call. -/
structure CreateCall (α : Type) where
  id : String
  type : String
  attrs : α
deriving DecidableEq, Repr

/-- Run a sequence of `createEntity` calls against an initially empty store. -/
def applyCreates {α : Type} (calls : List (CreateCall α)) : Graph α :=
  calls.foldl (fun g c => (g.createEntity c.id c.type c.attrs).2) Graph.empty

/-- One client call against the Graph Store: an entity creation or a
relationship creation. -/
inductive GraphOp (α : Type) where
  | create (id ty : String) (a : α)
  | relate (src dst : Entity α) (label : String)
deriving DecidableEq, Repr

/-- Apply one store operation.  A failing `createRelationship` raises and
therefore leaves the store unchanged. -/
def applyOp {α : Type} (g : Graph α) : GraphOp α → Graph α
  | .create id ty a => (g.createEntity id ty a).2
  | .relate s d l =>
    match g.createRelationship s d l with
    | .ok (_, g2) => g2
    | .error _ => g

/-- Run a sequence of store operations against an initially empty store. -/
def runOps {α : Type} (ops : List (GraphOp α)) : Graph α :=
  ops.foldl applyOp Graph.empty

/-- Outcome of one `fetch` + `response.json()` attempt inside
`ThirdPartyApiClient.get` (src/index.ts lines 32-42): a parsed payload, a
`FetchError` (network failure or malformed payload), or any other thrown
error. -/
inductive FetchOutcome (β : Type) where
  | payload (data : β)
  | fetchError (code msg : String)
  | otherError (msg : String)
deriving DecidableEq, Repr

namespace ThirdPartyApiClient

/-- `ThirdPartyApiClient.get` (src/index.ts lines 32-42): returns the parsed
body on success; on a thrown error it catches, logs a diagnostic line only
when the error is a `FetchError`, and falls through returning `undefined`
(modelled as `none`).  The second component is the list of emitted log
lines. -/
def get {β : Type} (baseUrl path : String) (o : FetchOutcome β) :
    Option β × List String :=
  match o with
  | .payload d => (some d, [])
  | .fetchError c m =>
    (none, ["Endpoint: " ++ baseUrl ++ path ++ "|Code: " ++ c ++ "|Message: " ++ m])
  | .otherError _ => (none, [])

end ThirdPartyApiClient

/-- A JavaScript runtime error. -/
inductive JsError where
  | typeError (msg : String)
deriving DecidableEq, Repr

/-- `PostsApi.iteratePosts` (src/index.ts lines 53-60) composed with the
driver's per-post callback, on a store `g`.  On a successful fetch the posts
are iterated in order; when `get` returned `undefined`, the call
`response.forEach(...)` throws a `TypeError` before any callback runs.
Result: final store, the error that escaped the iteration (if any), and the
emitted log lines. -/
def iteratePostsRun (o : FetchOutcome (List Post)) (g : Graph Record) :
    (Graph Record × Option JsError) × List String :=
  match ThirdPartyApiClient.get "https://jsonplaceholder.typicode.com" "/posts" o with
  | (some posts, log) => ((posts.foldl ingestPost g, none), log)
  | (none, log) =>
    ((g, some (JsError.typeError "Cannot read properties of undefined (reading forEach)")), log)

/-- Observable events of one driver run, in order of occurrence. -/
inductive Event where
  | userCreated (id : String)
  | postsFetched
  | postCreated (id : String)
  | relCreated (fromId toId : String)
deriving DecidableEq, Repr

/-- Whether an event is the creation of a user entity. -/
def Event.isUserCreated : Event → Bool
  | .userCreated _ => true
  | _ => false

/-- The events emitted while the driver's per-post callback runs on store
`g` (mirrors the branch structure of `ingestPost`). -/
def postTrace (g : Graph Record) (p : Post) : List Event :=
  let r := g.createEntity (getPostId p) "Post" (Record.post p)
  match (r.2).findEntityById ("user:" ++ toString p.userId) with
  | some userEntity =>
    match (r.2).createRelationship userEntity r.1 "HAS" with
    | .ok (rel, _) => [Event.postCreated (getPostId p), Event.relCreated rel.fromId rel.toId]
    | .error _ => [Event.postCreated (getPostId p)]
  | none => [Event.postCreated (getPostId p)]

/-- The per-user callback, instrumented with its event. -/
def ingestUserT (s : Graph Record × List Event) (u : User) : Graph Record × List Event :=
  (ingestUser s.1 u, s.2 ++ [Event.userCreated (getUserId u)])

/-- The per-post callback, instrumented with its events. -/
def ingestPostT (s : Graph Record × List Event) (p : Post) : Graph Record × List Event :=
  (ingestPost s.1 p, s.2 ++ postTrace s.1 p)

/-- The ingestion driver with its event trace: the whole users iteration is
awaited before the posts fetch starts (src/index.ts lines 120-132). -/
def runDriverT (users : List User) (posts : List Post) : Graph Record × List Event :=
  let s := users.foldl ingestUserT (Graph.empty, [])
  posts.foldl ingestPostT (s.1, s.2 ++ [Event.postsFetched])

/-- A concrete person record (shape of the `/users` payload). -/
def samplePerson : User :=
  ⟨1, "Leanne Graham", "Bret", "Sincere at april.biz",
    ⟨"Kulas Light", "Apt. 556", "Gwenborough", "92998-3874", ⟨"-37.3159", "81.1496"⟩⟩,
    "1-770-736-8031 x56442", "hildegard.org",
    ⟨"Romaguera-Crona", "Multi-layered client-server neural-net",
      "harness real-time e-markets"⟩⟩

/-- A concrete post authored by `samplePerson`. -/
def samplePost10 : Post := ⟨10, 1, "qui est esse", "est rerum tempore"⟩

/-- A concrete post whose `userId` matches no ingested person. -/
def samplePost11 : Post := ⟨11, 99, "dolorem eum", "dignissimos aperiam"⟩

/-- The entity handle produced for `samplePerson`. -/
def sampleUserEntity : Entity Record := ⟨"user:1", "User", Record.user samplePerson⟩

/-- The entity handle produced for `samplePost10`. -/
def samplePostEntity : Entity Record := ⟨"post:10", "Post", Record.post samplePost10⟩

/-- A concrete store holding the person and post entities and no
relationships. -/
def sampleTwoEntities : Graph Record := ⟨[sampleUserEntity, samplePostEntity], []⟩

/-- `sampleTwoEntities` after one successful `createRelationship`. -/
def sampleGraphRel : Graph Record :=
  ⟨[sampleUserEntity, samplePostEntity], [⟨"user:1", "post:10", "HAS"⟩]⟩

/-- A concrete operation sequence: two entity creations followed by one
relationship creation. -/
def sampleOps : List (GraphOp Record) :=
  [.create "user:1" "User" (Record.user samplePerson),
   .create "post:10" "Post" (Record.post samplePost10),
   .relate sampleUserEntity samplePostEntity "HAS"]

namespace Graph

variable {α : Type}

theorem createEntity_ids (g : Graph α) (id ty : String) (a : α) :
    ((g.createEntity id ty a).2.entities.map (fun x => x.id)) =
      if g.entities.any (fun x => x.id == id) then g.entities.map (fun x => x.id)
      else g.entities.map (fun x => x.id) ++ [id] := by
  unfold createEntity
  split
  · simp only [List.map_map]
    refine congrFun (congrArg _ (funext fun x => ?_)) _
    by_cases h : x.id = id <;> simp [h]
  · simp

theorem createEntity_relationships (g : Graph α) (id ty : String) (a : α) :
    (g.createEntity id ty a).2.relationships = g.relationships := by
  unfold createEntity
  split <;> rfl

theorem createEntity_fst (g : Graph α) (id ty : String) (a : α) :
    (g.createEntity id ty a).1 = ⟨id, ty, a⟩ := by
  unfold createEntity
  split <;> rfl

theorem find?_map_overwrite (e : Entity α) (id : String) (he : e.id = id)
    (l : List (Entity α)) (h : l.any (fun x => x.id == id) = true) :
    (l.map (fun x => if x.id == id then e else x)).find? (fun x => x.id == id) = some e := by
  induction l with
  | nil => simp at h
  | cons x xs ih =>
    by_cases hx : x.id = id
    · simp [hx, he]
    · simp only [List.any_cons] at h
      simp only [List.map_cons]
      rw [if_neg (by simp [hx])]
      rw [List.find?_cons_of_neg _ (by simp [hx])]
      exact ih (by simpa [hx] using h)

theorem find?_map_overwrite_ne (e : Entity α) (id id' : String) (he : e.id = id)
    (hne : id' ≠ id) (l : List (Entity α)) :
    (l.map (fun x => if x.id == id then e else x)).find? (fun x => x.id == id') =
      l.find? (fun x => x.id == id') := by
  induction l with
  | nil => rfl
  | cons x xs ih =>
    by_cases hx : x.id = id
    · rw [List.map_cons, if_pos (by simp [hx])]
      rw [List.find?_cons_of_neg _ (by simp [he, Ne.symm hne]),
          List.find?_cons_of_neg _ (by simp [hx, Ne.symm hne])]
      exact ih
    · rw [List.map_cons, if_neg (by simp [hx])]
      by_cases hx' : x.id = id'
      · rw [List.find?_cons_of_pos _ (by simp [hx']), List.find?_cons_of_pos _ (by simp [hx'])]
      · rw [List.find?_cons_of_neg _ (by simp [hx']), List.find?_cons_of_neg _ (by simp [hx'])]
        exact ih

theorem findEntityById_createEntity_self (g : Graph α) (id ty : String) (a : α) :
    (g.createEntity id ty a).2.findEntityById id = some ⟨id, ty, a⟩ := by
  unfold createEntity findEntityById
  split
  case isTrue h =>
    exact find?_map_overwrite ⟨id, ty, a⟩ id rfl g.entities h
  case isFalse h =>
    simp only []
    rw [List.find?_append]
    have h1 : g.entities.find? (fun x => x.id == id) = none := by
      rw [List.find?_eq_none]
      intro x hx
      simp only [beq_iff_eq]
      intro hc
      exact h (by simp only [List.any_eq_true]; exact ⟨x, hx, by simp [hc]⟩)
    simp [h1]

theorem findEntityById_createEntity_ne (g : Graph α) (id ty : String) (a : α)
    (id' : String) (hne : id' ≠ id) :
    (g.createEntity id ty a).2.findEntityById id' = g.findEntityById id' := by
  unfold createEntity findEntityById
  split
  · exact find?_map_overwrite_ne ⟨id, ty, a⟩ id id' rfl hne g.entities
  · simp only []
    rw [List.find?_append]
    have h1 : [(⟨id, ty, a⟩ : Entity α)].find? (fun x => x.id == id') = none := by
      simp [Ne.symm hne]
    simp [h1]

theorem createEntity_nodup (g : Graph α) (id ty : String) (a : α)
    (h : (g.entities.map (fun x => x.id)).Nodup) :
    ((g.createEntity id ty a).2.entities.map (fun x => x.id)).Nodup := by
  rw [createEntity_ids]
  split
  · exact h
  case isFalse hany =>
    rw [List.nodup_append]
    refine ⟨h, List.nodup_singleton id, ?_⟩
    intro x hx hy
    simp only [List.mem_singleton] at hy
    subst hy
    simp only [List.mem_map] at hx
    obtain ⟨e, he, heid⟩ := hx
    exact hany (by simp only [List.any_eq_true]; exact ⟨e, he, by simp [heid]⟩)

theorem findEntityById_isSome_iff_any (g : Graph α) (id : String) :
    (g.findEntityById id).isSome = true ↔ g.entities.any (fun x => x.id == id) = true := by
  unfold findEntityById
  rw [List.find?_isSome, List.any_eq_true]

theorem createRelationship_eq_ok (g : Graph α) (s d : Entity α) (l : String)
    (hs : (g.findEntityById s.id).isSome = true) (hd : (g.findEntityById d.id).isSome = true) :
    g.createRelationship s d l =
      .ok (⟨s.id, d.id, l⟩, { g with relationships := g.relationships ++ [⟨s.id, d.id, l⟩] }) := by
  unfold createRelationship
  rw [if_pos]
  rw [Bool.and_eq_true]
  exact ⟨(findEntityById_isSome_iff_any g s.id).mp hs, (findEntityById_isSome_iff_any g d.id).mp hd⟩

theorem createRelationship_eq_error (g : Graph α) (s d : Entity α) (l : String)
    (h : g.findEntityById s.id = none ∨ g.findEntityById d.id = none) :
    g.createRelationship s d l = .error .InvalidReferenceError := by
  unfold createRelationship
  rw [if_neg]
  intro hc
  rw [Bool.and_eq_true] at hc
  rcases h with h | h
  · have := (findEntityById_isSome_iff_any g s.id).mpr hc.1
    rw [h] at this
    simp at this
  · have := (findEntityById_isSome_iff_any g d.id).mpr hc.2
    rw [h] at this
    simp at this

theorem createRelationship_ok_cases (g : Graph α) (s d : Entity α) (l : String)
    (r : Relationship) (g2 : Graph α) (h : g.createRelationship s d l = .ok (r, g2)) :
    r = ⟨s.id, d.id, l⟩ ∧ g2.entities = g.entities ∧
      g2.relationships = g.relationships ++ [r] := by
  unfold createRelationship at h
  split at h
  · simp only [Except.ok.injEq, Prod.mk.injEq] at h
    obtain ⟨hr, hg⟩ := h
    subst hr
    subst hg
    exact ⟨rfl, rfl, rfl⟩
  · simp at h

theorem findEntityById_isSome_createEntity (g : Graph α) (id ty : String) (a : α)
    (id' : String) (h : (g.findEntityById id').isSome = true) :
    ((g.createEntity id ty a).2.findEntityById id').isSome = true := by
  by_cases hid : id' = id
  · subst hid
    rw [findEntityById_createEntity_self]
    rfl
  · rw [findEntityById_createEntity_ne g id ty a id' hid]
    exact h

theorem Integrity.createEntity {g : Graph α} (h : Integrity g) (id ty : String) (a : α) :
    Integrity (g.createEntity id ty a).2 := by
  intro r hr
  rw [createEntity_relationships] at hr
  obtain ⟨h1, h2⟩ := h r hr
  exact ⟨findEntityById_isSome_createEntity g id ty a _ h1,
         findEntityById_isSome_createEntity g id ty a _ h2⟩

theorem Integrity.createRelationship {g : Graph α} (h : Integrity g) {s d : Entity α}
    {l : String} {r : Relationship} {g2 : Graph α}
    (hok : g.createRelationship s d l = .ok (r, g2)) : Integrity g2 := by
  obtain ⟨hr, hent, hrel⟩ := createRelationship_ok_cases g s d l r g2 hok
  have hfind : ∀ id, g2.findEntityById id = g.findEntityById id := by
    intro id
    unfold findEntityById
    rw [hent]
  intro x hx
  rw [hrel, List.mem_append] at hx
  rcases hx with hx | hx
  · obtain ⟨h1, h2⟩ := h x hx
    rw [hfind, hfind]
    exact ⟨h1, h2⟩
  · rw [List.mem_singleton] at hx
    subst hx
    subst hr
    unfold Graph.createRelationship at hok
    split at hok
    case isTrue hc =>
      rw [Bool.and_eq_true] at hc
      rw [hfind, hfind]
      exact ⟨(findEntityById_isSome_iff_any g s.id).mpr hc.1,
             (findEntityById_isSome_iff_any g d.id).mpr hc.2⟩
    case isFalse => simp at hok

theorem Integrity.empty : Integrity (Graph.empty (α := α)) := by
  intro r hr
  simp [Graph.empty] at hr

theorem createEntity_countP (g : Graph α) (id ty : String) (a : α)
    (h : (g.entities.map (fun x => x.id)).Nodup) :
    (g.createEntity id ty a).2.entities.countP (fun x => x.id == id) = 1 := by
  have hnodup := createEntity_nodup g id ty a h
  have hcount : (g.createEntity id ty a).2.entities.countP (fun x => x.id == id) =
      ((g.createEntity id ty a).2.entities.map (fun x => x.id)).count id := by
    rw [List.count, List.countP_map]
    rfl
  rw [hcount]
  have hle := List.nodup_iff_count_le_one.mp hnodup id
  have hmem : id ∈ (g.createEntity id ty a).2.entities.map (fun x => x.id) := by
    have hfind := findEntityById_createEntity_self g id ty a
    unfold findEntityById at hfind
    have := List.mem_of_find?_eq_some hfind
    exact List.mem_map.mpr ⟨_, this, rfl⟩
  have hpos := List.count_pos_iff.mpr hmem
  omega

end Graph

theorem applyCreates_nodup {α : Type} (calls : List (CreateCall α)) :
    ((applyCreates calls).entities.map (fun x => x.id)).Nodup := by
  suffices h : ∀ (g : Graph α), (g.entities.map (fun x => x.id)).Nodup →
      ((calls.foldl (fun g c => (g.createEntity c.id c.type c.attrs).2) g).entities.map
        (fun x => x.id)).Nodup by
    exact h Graph.empty (by simp [Graph.empty])
  induction calls with
  | nil => intro g hg; exact hg
  | cons c cs ih =>
    intro g hg
    exact ih _ (Graph.createEntity_nodup g c.id c.type c.attrs hg)

theorem findEntityById_applyCreates {α : Type} (calls : List (CreateCall α)) (id : String) :
    (applyCreates calls).findEntityById id =
      (calls.reverse.find? (fun c => c.id == id)).map
        (fun c => (⟨c.id, c.type, c.attrs⟩ : Entity α)) := by
  induction calls using List.reverseRecOn with
  | nil => rfl
  | append_singleton l c ih =>
    have happ : applyCreates (l ++ [c]) =
        ((applyCreates l).createEntity c.id c.type c.attrs).2 := by
      unfold applyCreates
      rw [List.foldl_append]
      rfl
    rw [happ, List.reverse_append]
    by_cases hid : id = c.id
    · subst hid
      rw [Graph.findEntityById_createEntity_self]
      simp
    · rw [Graph.findEntityById_createEntity_ne _ _ _ _ _ hid, ih]
      simp only [List.reverse_singleton, List.singleton_append]
      rw [List.find?_cons_of_neg _ (by simp; exact fun hc => hid hc.symm)]

theorem Integrity_applyOp {α : Type} {g : Graph α} (h : Graph.Integrity g)
    (op : GraphOp α) : Graph.Integrity (applyOp g op) := by
  cases op with
  | create id ty a => exact h.createEntity id ty a
  | relate s d l =>
    dsimp only [applyOp]
    cases hok : g.createRelationship s d l with
    | ok v =>
      obtain ⟨r, g2⟩ := v
      exact h.createRelationship hok
    | error e => exact h

theorem Integrity_runOps {α : Type} (ops : List (GraphOp α)) :
    Graph.Integrity (runOps ops) := by
  suffices h : ∀ (g : Graph α), Graph.Integrity g →
      Graph.Integrity (ops.foldl applyOp g) from h Graph.empty Graph.Integrity.empty
  induction ops with
  | nil => intro g hg; exact hg
  | cons op rest ih => intro g hg; exact ih _ (Integrity_applyOp hg op)

theorem ingestPost_found (g : Graph Record) (p : Post) (u : Entity Record)
    (hu : (g.createEntity (getPostId p) "Post" (Record.post p)).2.findEntityById
      ("user:" ++ toString p.userId) = some u) :
    ingestPost g p = { (g.createEntity (getPostId p) "Post" (Record.post p)).2 with
      relationships := g.relationships ++ [⟨u.id, getPostId p, "HAS"⟩] } := by
  have hpred := List.find?_some hu
  have huid : u.id = "user:" ++ toString p.userId := by simpa using hpred
  have hs : ((g.createEntity (getPostId p) "Post" (Record.post p)).2.findEntityById
      u.id).isSome = true := by
    rw [huid, hu]; rfl
  have hd : ((g.createEntity (getPostId p) "Post" (Record.post p)).2.findEntityById
      (getPostId p)).isSome = true := by
    rw [Graph.findEntityById_createEntity_self]; rfl
  unfold ingestPost
  dsimp only
  rw [Graph.createEntity_fst]
  rw [hu]
  dsimp only
  have hok := Graph.createRelationship_eq_ok
    ((g.createEntity (getPostId p) "Post" (Record.post p)).2) u
    ⟨getPostId p, "Post", Record.post p⟩ "HAS" hs hd
  rw [hok]
  rw [Graph.createEntity_relationships]

theorem ingestPost_notfound (g : Graph Record) (p : Post)
    (hu : (g.createEntity (getPostId p) "Post" (Record.post p)).2.findEntityById
      ("user:" ++ toString p.userId) = none) :
    ingestPost g p = (g.createEntity (getPostId p) "Post" (Record.post p)).2 := by
  unfold ingestPost
  dsimp only
  rw [hu]

theorem Integrity_ingestUser {g : Graph Record} (h : Graph.Integrity g) (u : User) :
    Graph.Integrity (ingestUser g u) :=
  h.createEntity (getUserId u) "User" (Record.user u)

theorem Integrity_ingestPost {g : Graph Record} (h : Graph.Integrity g) (p : Post) :
    Graph.Integrity (ingestPost g p) := by
  have h1 := h.createEntity (getPostId p) "Post" (Record.post p)
  cases hu : (g.createEntity (getPostId p) "Post" (Record.post p)).2.findEntityById
      ("user:" ++ toString p.userId) with
  | none => rw [ingestPost_notfound g p hu]; exact h1
  | some u =>
    rw [ingestPost_found g p u hu]
    have hpred := List.find?_some hu
    have huid : u.id = "user:" ++ toString p.userId := by simpa using hpred
    have hs : ((g.createEntity (getPostId p) "Post" (Record.post p)).2.findEntityById
        u.id).isSome = true := by
      rw [huid, hu]; rfl
    have hd : ((g.createEntity (getPostId p) "Post" (Record.post p)).2.findEntityById
        (getPostId p)).isSome = true := by
      rw [Graph.findEntityById_createEntity_self]; rfl
    have hok := Graph.createRelationship_eq_ok
      ((g.createEntity (getPostId p) "Post" (Record.post p)).2) u
      ⟨getPostId p, "Post", Record.post p⟩ "HAS" hs hd
    have h2 := h1.createRelationship hok
    rwa [Graph.createEntity_relationships] at h2

theorem Integrity_runDriver (users : List User) (posts : List Post) :
    Graph.Integrity (runDriver users posts) := by
  have husers : ∀ (us : List User) (g : Graph Record), Graph.Integrity g →
      Graph.Integrity (us.foldl ingestUser g) := by
    intro us
    induction us with
    | nil => intro g hg; exact hg
    | cons u rest ih => intro g hg; exact ih _ (Integrity_ingestUser hg u)
  have hposts : ∀ (ps : List Post) (g : Graph Record), Graph.Integrity g →
      Graph.Integrity (ps.foldl ingestPost g) := by
    intro ps
    induction ps with
    | nil => intro g hg; exact hg
    | cons p rest ih => intro g hg; exact ih _ (Integrity_ingestPost hg p)
  exact hposts posts _ (husers users _ Graph.Integrity.empty)

theorem foldl_ingestUserT_trace (users : List User) :
    ∀ (s : Graph Record × List Event),
      (users.foldl ingestUserT s).2 =
        s.2 ++ users.map (fun u => Event.userCreated (getUserId u)) := by
  induction users with
  | nil => intro s; simp
  | cons u rest ih =>
    intro s
    rw [List.foldl_cons, ih]
    simp [ingestUserT]

theorem postTrace_not_user (g : Graph Record) (p : Post) :
    ∀ e ∈ postTrace g p, e.isUserCreated = false := by
  unfold postTrace
  dsimp only
  split
  · split
    · intro e he
      rcases List.mem_cons.mp he with rfl | he2
      · rfl
      · rcases List.mem_singleton.mp he2 with rfl
        rfl
    · intro e he
      rcases List.mem_singleton.mp he with rfl
      rfl
  · intro e he
    rcases List.mem_singleton.mp he with rfl
    rfl

theorem foldl_ingestPostT_trace (posts : List Post) :
    ∀ (s : Graph Record × List Event), ∃ tail,
      (posts.foldl ingestPostT s).2 = s.2 ++ tail ∧
        ∀ e ∈ tail, e.isUserCreated = false := by
  induction posts with
  | nil => intro s; exact ⟨[], by simp, by simp⟩
  | cons p ps ih =>
    intro s
    obtain ⟨tail, ht, hall⟩ := ih (ingestPostT s p)
    refine ⟨postTrace s.1 p ++ tail, ?_, ?_⟩
    · rw [List.foldl_cons, ht]
      show (ingestPostT s p).2 ++ tail = s.2 ++ (postTrace s.1 p ++ tail)
      rw [show (ingestPostT s p).2 = s.2 ++ postTrace s.1 p from rfl, List.append_assoc]
    · intro e he
      rcases List.mem_append.mp he with he | he
      · exact postTrace_not_user s.1 p e he
      · exact hall e he

theorem foldl_ingestUserT_fst (users : List User) :
    ∀ (s : Graph Record × List Event),
      (users.foldl ingestUserT s).1 = users.foldl ingestUser s.1 := by
  induction users with
  | nil => intro s; rfl
  | cons u rest ih => intro s; rw [List.foldl_cons, List.foldl_cons, ih]; rfl

theorem foldl_ingestPostT_fst (posts : List Post) :
    ∀ (s : Graph Record × List Event),
      (posts.foldl ingestPostT s).1 = posts.foldl ingestPost s.1 := by
  induction posts with
  | nil => intro s; rfl
  | cons p rest ih => intro s; rw [List.foldl_cons, List.foldl_cons, ih]; rfl

/-- Coherence of the instrumented driver with the plain driver. -/
theorem runDriverT_fst (users : List User) (posts : List Post) :
    (runDriverT users posts).1 = runDriver users posts := by
  unfold runDriverT runDriver
  dsimp only
  rw [foldl_ingestPostT_fst, foldl_ingestUserT_fst]

/-- C1: after any sequence of `createEntity` calls the store holds at most
one entry per id (the stored ids are pairwise distinct); a further
`createEntity(id, ty, a)` — in particular a repeated one — leaves exactly one
entry for `id`, and that entry carries the latest call's type and attributes.
`createEntity` is a total function, so the default duplicate policy never
throws. -/
theorem claim1_entity_identity_uniqueness (α : Type) (calls : List (CreateCall α))
    (id ty : String) (a : α) :
    ((applyCreates calls).entities.map (fun x => x.id)).Nodup ∧
    ((applyCreates calls).createEntity id ty a).2.entities.countP
        (fun x => x.id == id) = 1 ∧
    ((applyCreates calls).createEntity id ty a).2.findEntityById id =
      some ⟨id, ty, a⟩ :=
  ⟨applyCreates_nodup calls,
   Graph.createEntity_countP _ id ty a (applyCreates_nodup calls),
   Graph.findEntityById_createEntity_self _ id ty a⟩

/-- C2: referential integrity is an invariant: after any sequence of store
operations — and after any driver run — every relationship in the store has
both endpoints retrievable via `findEntityById` by their ids. -/
theorem claim2_referential_integrity (α : Type) :
    (∀ (ops : List (GraphOp α)) (r : Relationship),
      r ∈ (runOps ops).relationships →
        ((runOps ops).findEntityById r.fromId).isSome = true ∧
        ((runOps ops).findEntityById r.toId).isSome = true) ∧
    (∀ (users : List User) (posts : List Post) (r : Relationship),
      r ∈ (runDriver users posts).relationships →
        ((runDriver users posts).findEntityById r.fromId).isSome = true ∧
        ((runDriver users posts).findEntityById r.toId).isSome = true) :=
  ⟨fun ops r hr => Integrity_runOps ops r hr,
   fun users posts r hr => Integrity_runDriver users posts r hr⟩

/-- Witness for C2 at a concrete operation sequence and relationship. -/
theorem claim2_witness :
    ((runOps sampleOps).findEntityById "user:1").isSome = true ∧
    ((runOps sampleOps).findEntityById "post:10").isSome = true :=
  (claim2_referential_integrity Record).1 sampleOps ⟨"user:1", "post:10", "HAS"⟩
    (by
      rw [show (runOps sampleOps).relationships = [⟨"user:1", "post:10", "HAS"⟩] from rfl]
      exact List.mem_singleton.mpr rfl)

/-- C3: for each post the driver creates the post entity, then looks up
`"user:" + post.userId`; when found, exactly one `"HAS"` relationship from the
person entity to the post entity is appended, and when not found the
relationship sequence is unchanged (and nothing is thrown — both branches
return a store).  On the fixture person {id:1} with posts
[{id:10,userId:1},{id:11,userId:99}] the resulting store has one person
entity, two post entities and exactly the relationship user:1 → post:10. -/
theorem claim3_relationship_wiring :
    (∀ (g : Graph Record) (p : Post),
      (∀ u, (g.createEntity (getPostId p) "Post" (Record.post p)).2.findEntityById
          ("user:" ++ toString p.userId) = some u →
        (ingestPost g p).relationships =
          g.relationships ++ [⟨u.id, getPostId p, "HAS"⟩]) ∧
      ((g.createEntity (getPostId p) "Post" (Record.post p)).2.findEntityById
          ("user:" ++ toString p.userId) = none →
        (ingestPost g p).relationships = g.relationships)) ∧
    (runDriver [samplePerson] [samplePost10, samplePost11]).entities.countP
        (fun e => e.type == "User") = 1 ∧
    (runDriver [samplePerson] [samplePost10, samplePost11]).entities.countP
        (fun e => e.type == "Post") = 2 ∧
    (runDriver [samplePerson] [samplePost10, samplePost11]).relationships =
      [⟨"user:1", "post:10", "HAS"⟩] := by
  refine ⟨fun g p => ⟨fun u hu => ?_, fun hu => ?_⟩, rfl, rfl, rfl⟩
  · rw [ingestPost_found g p u hu]
  · rw [ingestPost_notfound g p hu, Graph.createEntity_relationships]

/-- Witness for C3: the found branch at a concrete store and post. -/
theorem claim3_witness :
    (ingestPost (ingestUser Graph.empty samplePerson) samplePost10).relationships =
      (ingestUser Graph.empty samplePerson).relationships ++
        [⟨"user:1", "post:10", "HAS"⟩] :=
  (claim3_relationship_wiring.1 (ingestUser Graph.empty samplePerson) samplePost10).1
    ⟨"user:1", "User", Record.user samplePerson⟩ rfl

/-- C4: entity identity is the kind tag joined to the source numeric id:
person records are stored under `"user:" + id`, post records under
`"post:" + id`, and the two spaces never collide — even for the same numeric
id the resulting entity ids differ. -/
theorem claim4_entity_id_construction (u : User) (p : Post) (g : Graph Record) :
    getUserId u = "user:" ++ toString u.id ∧
    getPostId p = "post:" ++ toString p.id ∧
    (ingestUser g u).findEntityById ("user:" ++ toString u.id) =
      some ⟨"user:" ++ toString u.id, "User", Record.user u⟩ ∧
    (ingestPost g p).findEntityById ("post:" ++ toString p.id) =
      some ⟨"post:" ++ toString p.id, "Post", Record.post p⟩ ∧
    ∀ (n : Int), "user:" ++ toString n ≠ "post:" ++ toString n := by
  refine ⟨rfl, rfl, ?_, ?_, ?_⟩
  · exact Graph.findEntityById_createEntity_self g (getUserId u) "User" (Record.user u)
  · cases hu : (g.createEntity (getPostId p) "Post" (Record.post p)).2.findEntityById
        ("user:" ++ toString p.userId) with
    | none =>
      rw [ingestPost_notfound g p hu]
      exact Graph.findEntityById_createEntity_self g (getPostId p) "Post" (Record.post p)
    | some u' =>
      rw [ingestPost_found g p u' hu]
      exact Graph.findEntityById_createEntity_self g (getPostId p) "Post" (Record.post p)
  · intro n h
    have h2 := congrArg String.data h
    rw [String.data_append, String.data_append] at h2
    simp at h2

/-- Witness for C4 at concrete records and a concrete numeric id. -/
theorem claim4_witness :
    (ingestUser Graph.empty samplePerson).findEntityById
        ("user:" ++ toString samplePerson.id) =
      some ⟨"user:" ++ toString samplePerson.id, "User", Record.user samplePerson⟩ ∧
    "user:" ++ toString (7 : Int) ≠ "post:" ++ toString (7 : Int) :=
  ⟨(claim4_entity_id_construction samplePerson samplePost10 Graph.empty).2.2.1,
   (claim4_entity_id_construction samplePerson samplePost10 Graph.empty).2.2.2.2 7⟩

/-- C5: `findEntityById` over any sequence of `createEntity` calls returns
exactly the entity of the latest call for that id, and `none` for an id never
created; both outcomes are ordinary data (an `Option`, not an exception), and
the lookup is a pure function of the store. -/
theorem claim5_lookup_correctness (α : Type) (calls : List (CreateCall α))
    (id : String) :
    (applyCreates calls).findEntityById id =
      (calls.reverse.find? (fun c => c.id == id)).map
        (fun c => (⟨c.id, c.type, c.attrs⟩ : Entity α)) :=
  findEntityById_applyCreates calls id

/-- C6 counterexample: on a failed transport fetch the driver does not
continue without raising an error — iterating the `undefined` returned by
`get` throws a `TypeError`, so the error component of the run is not `none`. -/
theorem claim6_counterexample :
    ¬ (iteratePostsRun (.fetchError "ENOTFOUND" "request failed") Graph.empty).1.2 =
      none := by
  intro h
  rw [show (iteratePostsRun (.fetchError "ENOTFOUND" "request failed") Graph.empty).1.2 =
      some (JsError.typeError "Cannot read properties of undefined (reading forEach)")
    from rfl] at h
  exact Option.noConfusion h

/-- C6 as amended: when the transport fetch for the posts source fails, the
failure is surfaced only as one diagnostic log line, zero records are
delivered (the per-record callback never runs and the store is returned
unchanged, so the Graph Store never observes the transport error) — but the
driver does not continue: the iteration `response.forEach` throws a
`TypeError` because `get` returned `undefined`. -/
theorem claim6_fetch_failure (code msg : String) (g : Graph Record) :
    iteratePostsRun (.fetchError code msg) g =
      ((g, some (JsError.typeError
          "Cannot read properties of undefined (reading forEach)")),
       ["Endpoint: https://jsonplaceholder.typicode.com/posts|Code: " ++ code ++
         "|Message: " ++ msg]) := rfl

/-- C7: `createRelationship` with a handle whose id the store does not
contain fails with `InvalidReferenceError`, and the failing call leaves the
store — in particular its relationship sequence — unchanged. -/
theorem claim7_dangling_reference (α : Type) (g : Graph α) (s d : Entity α)
    (l : String)
    (h : g.findEntityById s.id = none ∨ g.findEntityById d.id = none) :
    g.createRelationship s d l = .error .InvalidReferenceError ∧
    applyOp g (.relate s d l) = g := by
  have he := Graph.createRelationship_eq_error g s d l h
  refine ⟨he, ?_⟩
  dsimp only [applyOp]
  rw [he]

/-- Witness for C7: a handle against the empty store. -/
theorem claim7_witness :
    Graph.empty.createRelationship sampleUserEntity samplePostEntity "HAS" =
      .error .InvalidReferenceError ∧
    applyOp Graph.empty (.relate sampleUserEntity samplePostEntity "HAS") =
      Graph.empty :=
  claim7_dangling_reference Record Graph.empty sampleUserEntity samplePostEntity
    "HAS" (Or.inl rfl)

/-- C8: relationships are not deduplicated: a successful `createRelationship`
grows the relationship sequence by exactly one, and repeating the identical
call yields a second, separate entry — the store then holds two occurrences
of the same `(from, to, label)` edge. -/
theorem claim8_no_relationship_dedup (α : Type) (g : Graph α) (s d : Entity α)
    (l : String) (r1 : Relationship) (g1 : Graph α)
    (h : g.createRelationship s d l = .ok (r1, g1)) :
    g1.relationships.length = g.relationships.length + 1 ∧
    ∃ g2, g1.createRelationship s d l = .ok (r1, g2) ∧
      g2.relationships = g.relationships ++ [r1, r1] ∧
      g2.relationships.length = g.relationships.length + 2 ∧
      g2.relationships.count r1 = g.relationships.count r1 + 2 := by
  obtain ⟨hr, hent, hrel⟩ := Graph.createRelationship_ok_cases g s d l r1 g1 h
  have hlen : g1.relationships.length = g.relationships.length + 1 := by
    rw [hrel]; simp
  have hcheck : (g.entities.any (fun x => x.id == s.id) = true) ∧
      (g.entities.any (fun x => x.id == d.id) = true) := by
    unfold Graph.createRelationship at h
    split at h
    case isTrue hc => rw [Bool.and_eq_true] at hc; exact hc
    case isFalse => simp at h
  have hs1 : (g1.findEntityById s.id).isSome = true := by
    rw [Graph.findEntityById_isSome_iff_any, hent]
    exact hcheck.1
  have hd1 : (g1.findEntityById d.id).isSome = true := by
    rw [Graph.findEntityById_isSome_iff_any, hent]
    exact hcheck.2
  have hok2 := Graph.createRelationship_eq_ok g1 s d l hs1 hd1
  refine ⟨hlen, { g1 with relationships := g1.relationships ++ [⟨s.id, d.id, l⟩] },
    ?_, ?_, ?_, ?_⟩
  · rw [hok2, hr]
  · rw [hrel, hr, List.append_assoc]
    rfl
  · rw [hrel]
    simp
  · rw [hrel, hr]
    simp [List.count_append, List.count_cons]

/-- Witness for C8: the identical relationship created twice on a concrete
two-entity store. -/
theorem claim8_witness :
    sampleGraphRel.relationships.length = sampleTwoEntities.relationships.length + 1 ∧
    ∃ g2, sampleGraphRel.createRelationship sampleUserEntity samplePostEntity "HAS" =
        .ok (⟨"user:1", "post:10", "HAS"⟩, g2) ∧
      g2.relationships = sampleTwoEntities.relationships ++
        [⟨"user:1", "post:10", "HAS"⟩, ⟨"user:1", "post:10", "HAS"⟩] ∧
      g2.relationships.length = sampleTwoEntities.relationships.length + 2 ∧
      g2.relationships.count ⟨"user:1", "post:10", "HAS"⟩ =
        sampleTwoEntities.relationships.count ⟨"user:1", "post:10", "HAS"⟩ + 2 :=
  claim8_no_relationship_dedup Record sampleTwoEntities sampleUserEntity
    samplePostEntity "HAS" ⟨"user:1", "post:10", "HAS"⟩ sampleGraphRel rfl

/-- C9: in every driver run the event trace splits into a prefix holding all
user-entity creations (one per person record) and nothing else, followed by a
suffix holding the posts fetch and every post-related event and no user
creation: people ingestion completes before the first post is fetched or
turned into an entity or relationship. -/
theorem claim9_users_before_posts (users : List User) (posts : List Post) :
    ∃ pre suf, (runDriverT users posts).2 = pre ++ suf ∧
      (∀ e ∈ pre, e.isUserCreated = true) ∧
      (∀ e ∈ suf, e.isUserCreated = false) ∧
      (∀ u ∈ users, Event.userCreated (getUserId u) ∈ pre) ∧
      Event.postsFetched ∈ suf := by
  obtain ⟨tail, ht, hall⟩ := foldl_ingestPostT_trace posts
    ((users.foldl ingestUserT (Graph.empty, [])).1,
     (users.foldl ingestUserT (Graph.empty, [])).2 ++ [Event.postsFetched])
  refine ⟨users.map (fun u => Event.userCreated (getUserId u)),
          Event.postsFetched :: tail, ?_, ?_, ?_, ?_, ?_⟩
  · unfold runDriverT
    dsimp only
    rw [ht]
    dsimp only
    rw [foldl_ingestUserT_trace]
    simp
  · intro e he
    obtain ⟨u, hu, rfl⟩ := List.mem_map.mp he
    rfl
  · intro e he
    rcases List.mem_cons.mp he with rfl | he2
    · rfl
    · exact hall e he2
  · intro u hu
    exact List.mem_map.mpr ⟨u, hu, rfl⟩
  · exact List.mem_cons_self _ _

/-- Witness for C9 at a concrete run. -/
theorem claim9_witness :
    ∃ pre suf, (runDriverT [samplePerson] [samplePost10]).2 = pre ++ suf ∧
      (∀ e ∈ pre, e.isUserCreated = true) ∧
      (∀ e ∈ suf, e.isUserCreated = false) ∧
      (∀ u ∈ [samplePerson], Event.userCreated (getUserId u) ∈ pre) ∧
      Event.postsFetched ∈ suf :=
  claim9_users_before_posts [samplePerson] [samplePost10]

/-- C10: the driver is deterministic: two runs over the same user and post
sequences produce identical stores (same entities, ids, types, attributes and
relationships, in the same order) and identical event traces. -/
theorem claim10_driver_deterministic (users1 users2 : List User)
    (posts1 posts2 : List Post) (hu : users1 = users2) (hp : posts1 = posts2) :
    runDriverT users1 posts1 = runDriverT users2 posts2 ∧
    runDriver users1 posts1 = runDriver users2 posts2 := by
  subst hu
  subst hp
  exact ⟨rfl, rfl⟩

/-- Witness for C10 at a concrete pair of identical runs. -/
theorem claim10_witness :
    runDriverT [samplePerson] [samplePost10, samplePost11] =
      runDriverT [samplePerson] [samplePost10, samplePost11] ∧
    runDriver [samplePerson] [samplePost10, samplePost11] =
      runDriver [samplePerson] [samplePost10, samplePost11] :=
  claim10_driver_deterministic [samplePerson] [samplePerson]
    [samplePost10, samplePost11] [samplePost10, samplePost11] rfl rfl

end ApiIntegration
